import Mathlib

/-!
# Verification of the Datatrans webhook signature verifier

A shallow embedding of `src/datatrans/webhook.py` (class `WebhookVerifier`)
together with the pieces of the Python runtime it leans on:

* `bytes.fromhex` (key decoding in `__init__`),
* `str.split(",")` (header parsing),
* `int(...)` (timestamp parsing, including its `ValueError` on bad input),
* `str.encode("utf-8")`,
* `hashlib.sha256` / `hmac.new(..., hashlib.sha256).hexdigest()`,
* `hmac.compare_digest`, modelled by its functional contract (equality);
  its constant-time execution is a timing property outside this embedding.

Machine integers do not occur: Python integers are unbounded, so `Nat`/`Int`
model them exactly; the 32-bit arithmetic inside SHA-256 is made explicit
with `% 2^32` masks.  Exceptions are modelled with `Except PyError`.
Whitespace handling in `int(...)` and `bytes.fromhex` is modelled for the
ASCII whitespace characters (the inputs in all statements below are ASCII).
-/

namespace Datatrans

/-- The exception classes the verifier can raise.  `WebhookVerificationError`
and `ConfigurationError` are the repository's own classes
(`src/datatrans/exceptions.py`); `ValueError` is Python's builtin, raised by
`int(...)` and `bytes.fromhex` on malformed input; `TypeError` is Python's
builtin, raised by `hmac.compare_digest` when a `str` operand contains a
non-ASCII character. -/
inductive PyError where
  | webhookVerification (msg : String)
  | configurationError (msg : String)
  | valueError
  | typeError
deriving DecidableEq, Repr

deriving instance DecidableEq for Except

/-- Is this error an instance of the repository's `WebhookVerificationError`? -/
def PyError.isWebhookVerificationError : PyError → Bool
  | .webhookVerification _ => true
  | _ => false

/-- Is this error an instance of the repository's `ConfigurationError`? -/
def PyError.isConfigError : PyError → Bool
  | .configurationError _ => true
  | _ => false

/-! ## Bytes and hex -/

/-- Value of a hex digit, as accepted by `bytes.fromhex`. -/
def hexDigitVal? (c : Char) : Option Nat :=
  if '0' ≤ c ∧ c ≤ '9' then some (c.toNat - '0'.toNat)
  else if 'a' ≤ c ∧ c ≤ 'f' then some (c.toNat - 'a'.toNat + 10)
  else if 'A' ≤ c ∧ c ≤ 'F' then some (c.toNat - 'A'.toNat + 10)
  else none

/-- ASCII whitespace, as skipped by `bytes.fromhex` and stripped by `int(...)`. -/
def isPyWs (c : Char) : Bool :=
  c = ' ' || c = '\t' || c = '\n' || c = '\r' || c = '\x0b' || c = '\x0c'

/-- Python's `bytes.fromhex`: pairs of hex digits, ASCII whitespace allowed
between pairs; `none` models its `ValueError` on anything else. -/
def bytesFromHex : List Char → Option (List Nat)
  | [] => some []
  | c :: cs =>
    if isPyWs c then bytesFromHex cs
    else
      match hexDigitVal? c, cs with
      | some hi, c2 :: cs2 =>
        match hexDigitVal? c2 with
        | some lo => (bytesFromHex cs2).map (fun bs => (16 * hi + lo) :: bs)
        | none => none
      | _, _ => none

/-- Lowercase hex digit for a value below 16 (as in `hexdigest()`). -/
def hexChar (n : Nat) : Char :=
  if n < 10 then Char.ofNat ('0'.toNat + n) else Char.ofNat ('a'.toNat + n - 10)

/-- Two lowercase hex digits of one byte. -/
def byteToHex (b : Nat) : List Char :=
  [hexChar (b / 16), hexChar (b % 16)]

/-- Lowercase hex encoding of a byte string: Python's `.hexdigest()` output
format. -/
def bytesToHexChars (bs : List Nat) : List Char :=
  (bs.map byteToHex).flatten

/-- `str.isascii()`: every character below `U+0080`. -/
def pyAsciiOnly (l : List Char) : Bool := l.all (fun c => c.toNat < 128)

/-- `hmac.compare_digest` on two `str` arguments: CPython raises `TypeError`
("comparing strings with non-ASCII characters is not supported") when either
operand contains a non-ASCII character; otherwise it is equality, computed
in constant time (a timing property outside this embedding). -/
def compare_digest (a b : List Char) : Except PyError Bool :=
  if pyAsciiOnly a ∧ pyAsciiOnly b then .ok (decide (a = b)) else .error .typeError

/-! ## UTF-8 encoding (`str.encode("utf-8")`) -/

/-- UTF-8 encoding of one unicode scalar value. -/
def utf8EncodeChar (c : Char) : List Nat :=
  let n := c.toNat
  if n < 0x80 then [n]
  else if n < 0x800 then
    [0xC0 ||| (n >>> 6), 0x80 ||| (n &&& 0x3F)]
  else if n < 0x10000 then
    [0xE0 ||| (n >>> 12), 0x80 ||| ((n >>> 6) &&& 0x3F), 0x80 ||| (n &&& 0x3F)]
  else
    [0xF0 ||| (n >>> 18), 0x80 ||| ((n >>> 12) &&& 0x3F),
     0x80 ||| ((n >>> 6) &&& 0x3F), 0x80 ||| (n &&& 0x3F)]

/-- `str.encode("utf-8")` on a character list. -/
def utf8Encode (l : List Char) : List Nat :=
  (l.map utf8EncodeChar).flatten

/-! ## SHA-256 (`hashlib.sha256`)

Words are `Nat` with explicit reduction `% 2 ^ 32`. -/

/-- Truncation to a 32-bit word. -/
def w32 (n : Nat) : Nat := n % 4294967296

/-- 32-bit modular addition. -/
def add32 (a b : Nat) : Nat := w32 (a + b)

/-- 32-bit right rotation. -/
def rotr32 (j x : Nat) : Nat := w32 ((x >>> j) ||| (x <<< (32 - j)))

/-- SHA-256 `Σ0`. -/
def bigSigma0 (x : Nat) : Nat := rotr32 2 x ^^^ rotr32 13 x ^^^ rotr32 22 x

/-- SHA-256 `Σ1`. -/
def bigSigma1 (x : Nat) : Nat := rotr32 6 x ^^^ rotr32 11 x ^^^ rotr32 25 x

/-- SHA-256 `σ0`. -/
def smallSigma0 (x : Nat) : Nat := rotr32 7 x ^^^ rotr32 18 x ^^^ (x >>> 3)

/-- SHA-256 `σ1`. -/
def smallSigma1 (x : Nat) : Nat := rotr32 17 x ^^^ rotr32 19 x ^^^ (x >>> 10)

/-- SHA-256 `Ch`; complement within 32 bits. -/
def chFn (x y z : Nat) : Nat := (x &&& y) ^^^ ((x ^^^ 0xFFFFFFFF) &&& z)

/-- SHA-256 `Maj`. -/
def majFn (x y z : Nat) : Nat := (x &&& y) ^^^ (x &&& z) ^^^ (y &&& z)

/-- The 64 SHA-256 round constants (FIPS 180-4, section 4.2.2: the first 32
bits of the fractional parts of the cube roots of the first 64 primes),
written in decimal. -/
def sha256K : List Nat :=
  [1116352408, 1899447441, 3049323471, 3921009573, 961987163, 1508970993,
   2453635748, 2870763221, 3624381080, 310598401, 607225278, 1426881987,
   1925078388, 2162078206, 2614888103, 3248222580, 3835390401, 4022224774,
   264347078, 604807628, 770255983, 1249150122, 1555081692, 1996064986,
   2554220882, 2821834349, 2952996808, 3210313671, 3336571891, 3584528711,
   113926993, 338241895, 666307205, 773529912, 1294757372, 1396182291,
   1695183700, 1986661051, 2177026350, 2456956037, 2730485921, 2820302411,
   3259730800, 3345764771, 3516065817, 3600352804, 4094571909, 275423344,
   430227734, 506948616, 659060556, 883997877, 958139571, 1322822218,
   1537002063, 1747873779, 1955562222, 2024104815, 2227730452, 2361852424,
   2428436474, 2756734187, 3204031479, 3329325298]

/-- The eight-word SHA-256 working state. -/
abbrev St8 := Nat × Nat × Nat × Nat × Nat × Nat × Nat × Nat

/-- SHA-256 initial hash value (FIPS 180-4, section 5.3.3), in decimal. -/
def initSt : St8 :=
  (1779033703, 3144134277, 1013904242, 2773480762,
   1359893119, 2600822924, 528734635, 1541459225)

/-- Big-endian 32-bit words from bytes (trailing incomplete group dropped;
inputs are always a multiple of four bytes). -/
def bytesToWords : List Nat → List Nat
  | b0 :: b1 :: b2 :: b3 :: rest =>
    (((b0 * 256 + b1) * 256 + b2) * 256 + b3) :: bytesToWords rest
  | _ => []

/-- Message-schedule extension of the 16 block words to 64. -/
def extendW (ws : List Nat) : List Nat :=
  (List.range 48).foldl
    (fun acc _ =>
      let i := acc.length
      let w := add32 (add32 (smallSigma1 (acc.getD (i - 2) 0)) (acc.getD (i - 7) 0))
                     (add32 (smallSigma0 (acc.getD (i - 15) 0)) (acc.getD (i - 16) 0))
      acc ++ [w])
    ws

/-- One SHA-256 round on the working state, fed one `(k, w)` pair. -/
def roundStep (st : St8) (kw : Nat × Nat) : St8 :=
  match st with
  | (a, b, c, d, e, f, g, h) =>
    let t1 := add32 h (add32 (bigSigma1 e) (add32 (chFn e f g) (add32 kw.1 kw.2)))
    let t2 := add32 (bigSigma0 a) (majFn a b c)
    (add32 t1 t2, a, b, c, add32 d t1, e, f, g)

/-- Compression of one 64-byte block into the hash state. -/
def compressBlock (st : St8) (block : List Nat) : St8 :=
  let ws := extendW (bytesToWords block)
  match st, (sha256K.zip ws).foldl roundStep st with
  | (a0, b0, c0, d0, e0, f0, g0, h0), (a, b, c, d, e, f, g, h) =>
    (add32 a0 a, add32 b0 b, add32 c0 c, add32 d0 d,
     add32 e0 e, add32 f0 f, add32 g0 g, add32 h0 h)

/-- Fold the compression over the (already padded) message, 64 bytes at a
time.  The fuel argument only bounds the recursion depth (each step consumes
64 bytes, so any fuel of at least the byte count suffices); it keeps the
function structurally recursive, hence reducible by the kernel. -/
def sha256BlocksAux : Nat → St8 → List Nat → St8
  | 0, st, _ => st
  | _, st, [] => st
  | fuel + 1, st, l =>
    sha256BlocksAux fuel (compressBlock st (List.take 64 l)) (List.drop 64 l)

/-- Compression folded over a whole padded message. -/
def sha256Blocks (st : St8) (l : List Nat) : St8 :=
  sha256BlocksAux l.length st l

/-- Big-endian 8-byte encoding of the bit length. -/
def be64 (n : Nat) : List Nat :=
  [(n >>> 56) % 256, (n >>> 48) % 256, (n >>> 40) % 256, (n >>> 32) % 256,
   (n >>> 24) % 256, (n >>> 16) % 256, (n >>> 8) % 256, n % 256]

/-- SHA-256 padding: `0x80`, zeros to 56 mod 64, then the bit length. -/
def sha256Pad (msg : List Nat) : List Nat :=
  let L := msg.length
  let z := (120 - ((L + 1) % 64)) % 64
  msg ++ 0x80 :: (List.replicate z 0 ++ be64 (8 * L))

/-- Big-endian bytes of one 32-bit word. -/
def wordToBytes (w : Nat) : List Nat :=
  [(w >>> 24) % 256, (w >>> 16) % 256, (w >>> 8) % 256, w % 256]

/-- SHA-256 of a byte string, as a 32-byte digest. -/
def sha256 (msg : List Nat) : List Nat :=
  match sha256Blocks initSt (sha256Pad msg) with
  | (a, b, c, d, e, f, g, h) =>
    wordToBytes a ++ wordToBytes b ++ wordToBytes c ++ wordToBytes d ++
    wordToBytes e ++ wordToBytes f ++ wordToBytes g ++ wordToBytes h

/-- HMAC-SHA256 (`hmac.new(key, msg, hashlib.sha256).digest()`), block size
64 bytes. -/
def hmacSha256 (key msg : List Nat) : List Nat :=
  let k := if 64 < key.length then sha256 key else key
  let k0 := k ++ List.replicate (64 - k.length) 0
  sha256 ((k0.map (fun b => b ^^^ 0x5c)) ++ sha256 ((k0.map (fun b => b ^^^ 0x36)) ++ msg))

/-! ## Python `int(...)` on strings

`int(s)` strips ASCII whitespace, allows one optional sign, then decimal
digits with single underscores permitted between digits.  Any other input
raises `ValueError`, modelled by `none`. -/

/-- ASCII decimal digit test. -/
def isDigitChar (c : Char) : Bool := 48 ≤ c.toNat && c.toNat ≤ 57

/-- Value of a decimal digit character. -/
def digitVal (c : Char) : Nat := c.toNat - 48

/-- Digits after the first: plain digits, or an underscore followed by a
digit. -/
def parseDigitsRest (acc : Nat) : List Char → Option Nat
  | [] => some acc
  | c :: cs =>
    if isDigitChar c then parseDigitsRest (10 * acc + digitVal c) cs
    else if c = '_' then
      match cs with
      | c2 :: cs2 =>
        if isDigitChar c2 then parseDigitsRest (10 * acc + digitVal c2) cs2 else none
      | [] => none
    else none

/-- A nonempty run of decimal digits (with embedded underscores). -/
def parseUnsignedDigits : List Char → Option Nat
  | [] => none
  | c :: cs => if isDigitChar c then parseDigitsRest (digitVal c) cs else none

/-- Strip leading and trailing ASCII whitespace, as `int(...)` does. -/
def stripWs (l : List Char) : List Char :=
  ((l.dropWhile isPyWs).reverse.dropWhile isPyWs).reverse

/-- Sign handling of `int(...)` after stripping. -/
def pyIntAfterStrip : List Char → Option Int
  | [] => none
  | c :: cs =>
    if c = '+' then (parseUnsignedDigits cs).map Int.ofNat
    else if c = '-' then (parseUnsignedDigits cs).map (fun n => -(Int.ofNat n))
    else (parseUnsignedDigits (c :: cs)).map Int.ofNat

/-- Python's `int(s)` for a character list; `none` is its `ValueError`. -/
def pyIntChars (l : List Char) : Option Int :=
  pyIntAfterStrip (stripWs l)

/-! ## Python decimal formatting (`f"{timestamp}"`) -/

/-- The decimal digit character for a value below ten. -/
def digitChar (d : Nat) : Char := Char.ofNat (48 + d)

/-- Decimal digits of a natural number, most significant first.  The fuel
argument bounds the recursion depth (any fuel above the argument suffices);
it keeps the function structurally recursive, hence kernel-reducible. -/
def natReprAux : Nat → Nat → List Char
  | 0, _ => []
  | fuel + 1, n =>
    if n < 10 then [digitChar n]
    else natReprAux fuel (n / 10) ++ [digitChar (n % 10)]

/-- Decimal digits of a natural number, most significant first. -/
def natReprChars (n : Nat) : List Char := natReprAux (n + 1) n

/-- Python's decimal form of an integer, as produced by `f"{timestamp}"`. -/
def pyIntRepr : Int → List Char
  | .ofNat n => natReprChars n
  | .negSucc m => '-' :: natReprChars (m + 1)

/-! ## Python `str.split(",")` -/

/-- `s.split(",")`: always at least one part; `""` gives `[""]`. -/
def pySplit : List Char → List (List Char)
  | [] => [[]]
  | c :: cs =>
    if c = ',' then [] :: pySplit cs
    else
      match pySplit cs with
      | [] => [[c]]
      | p :: ps => (c :: p) :: ps

/-! ## The verifier (`src/datatrans/webhook.py`) -/

/-- `WebhookVerifier`: holds the decoded HMAC key bytes (`self.hmac_key`). -/
structure WebhookVerifier where
  hmac_key : List Nat
deriving DecidableEq, Repr

/-- `WebhookVerifier.__init__`: `self.hmac_key = bytes.fromhex(hmac_key)`.
`bytes.fromhex` raises `ValueError` on a non-hex string. -/
def WebhookVerifier.mk? (hmac_key : String) : Except PyError WebhookVerifier :=
  match bytesFromHex hmac_key.data with
  | some bs => .ok ⟨bs⟩
  | none => .error .valueError

/-- `WebhookVerifier._calculate_signature`: lowercase-hex
HMAC-SHA256 over `f"{timestamp}{payload}".encode("utf-8")`. -/
def WebhookVerifier.calculate_signature (v : WebhookVerifier)
    (timestamp : Int) (payload : String) : List Char :=
  bytesToHexChars (hmacSha256 v.hmac_key (utf8Encode (pyIntRepr timestamp ++ payload.data)))

/-- The `for part in parts` loop of `verify_signature`: a part starting with
`"t="` sets `timestamp = int(part[2:])` (possibly raising `ValueError`), an
`elif` catches parts starting with `"s0="` and sets
`received_signature = part[3:]`; later assignments overwrite earlier ones. -/
def scanParts :
    Option Int × Option (List Char) → List (List Char) →
    Except PyError (Option Int × Option (List Char))
  | st, [] => .ok st
  | st, part :: rest =>
    if List.isPrefixOf ['t', '='] part then
      match pyIntChars (part.drop 2) with
      | some n => scanParts (some n, st.2) rest
      | none => .error .valueError
    else if List.isPrefixOf ['s', '0', '='] part then
      scanParts (st.1, some (part.drop 3)) rest
    else scanParts st rest

/-- Python's `abs` on an integer. -/
def pyAbs (i : Int) : Int := Int.ofNat i.natAbs

/-- `WebhookVerifier.verify_signature`.  `now` stands for the one impure
read `int(time.time() * 1000)`; everything else follows the source line by
line.  The Python truthiness test `if not timestamp or not
received_signature` fails when either variable is still `None`, when the
parsed timestamp is `0`, or when the signature text is empty.
`hmac.compare_digest` raises `TypeError` on a non-ASCII operand and is
otherwise (constant-time) equality; `if not hmac.compare_digest(...)` raises
the mismatch error on an unequal pair. -/
def WebhookVerifier.verify_signature (v : WebhookVerifier) (now : Int)
    (signature_header : String) (payload : String) (max_age_seconds : Int) :
    Except PyError Bool :=
  let parts := pySplit signature_header.data
  if parts.length ≠ 2 then
    .error (.webhookVerification "Invalid signature header format")
  else
    match scanParts (none, none) parts with
    | .error e => .error e
    | .ok (timestamp?, received?) =>
      match timestamp?, received? with
      | some timestamp, some received_signature =>
        if timestamp = 0 ∨ received_signature = [] then
          .error (.webhookVerification "Missing timestamp or signature")
        else if max_age_seconds * 1000 < pyAbs (now - timestamp) then
          .error (.webhookVerification "Signature timestamp too old")
        else
          match compare_digest (v.calculate_signature timestamp payload)
              received_signature with
          | .error e => .error e
          | .ok cmp =>
            if cmp then .ok true
            else .error (.webhookVerification "Signature mismatch")
      | _, _ => .error (.webhookVerification "Missing timestamp or signature")

/-- State-passing form of `verify_signature`: the method reads
`self.hmac_key` and assigns to no attribute of `self`, so threading the
object state through the call returns it unchanged. -/
def WebhookVerifier.verify_signatureS (v : WebhookVerifier) (now : Int)
    (signature_header : String) (payload : String) (max_age_seconds : Int) :
    Except PyError Bool × WebhookVerifier :=
  (v.verify_signature now signature_header payload max_age_seconds, v)

/-! ## Character-class lemmas -/

theorem char_eq_of_toNat_eq {c d : Char} (h : c.toNat = d.toNat) : c = d := by
  apply Char.ext
  exact UInt32.ext h

theorem isDigitChar_toNat {c : Char} (h : isDigitChar c = true) :
    48 ≤ c.toNat ∧ c.toNat ≤ 57 := by
  simp only [isDigitChar, Bool.and_eq_true, decide_eq_true_eq] at h
  exact h

theorem isDigitChar_ne_plus {c : Char} (h : isDigitChar c = true) : c ≠ '+' := by
  intro heq
  subst heq
  exact absurd h (by decide)

theorem isDigitChar_ne_minus {c : Char} (h : isDigitChar c = true) : c ≠ '-' := by
  intro heq
  subst heq
  exact absurd h (by decide)

theorem isDigitChar_ne_comma {c : Char} (h : isDigitChar c = true) : c ≠ ',' := by
  intro heq
  subst heq
  exact absurd h (by decide)

theorem isDigitChar_not_ws {c : Char} (h : isDigitChar c = true) : isPyWs c = false := by
  simp only [isPyWs, Bool.or_eq_false_iff, decide_eq_false_iff_not]
  refine ⟨⟨⟨⟨⟨?_, ?_⟩, ?_⟩, ?_⟩, ?_⟩, ?_⟩ <;>
    (intro heq; subst heq; exact absurd h (by decide))

theorem digitChar_isDigit {d : Nat} (h : d < 10) : isDigitChar (digitChar d) = true := by
  interval_cases d <;> decide

theorem digitVal_digitChar {d : Nat} (h : d < 10) : digitVal (digitChar d) = d := by
  interval_cases d <;> decide

/-! ## Decimal repr / parse roundtrip -/

/-- The folding step that accumulates one more decimal digit. -/
def digitStep (a : Nat) (c : Char) : Nat := 10 * a + digitVal c

theorem natReprAux_spec :
    ∀ fuel n, n < fuel →
      (∀ c ∈ natReprAux fuel n, isDigitChar c = true) ∧
      natReprAux fuel n ≠ [] ∧
      ∀ acc, (natReprAux fuel n).foldl digitStep acc =
        acc * 10 ^ (natReprAux fuel n).length + n := by
  intro fuel
  induction fuel with
  | zero => intro n hn; omega
  | succ fuel ih =>
    intro n hn
    by_cases h10 : n < 10
    · refine ⟨?_, ?_, ?_⟩ <;> simp [natReprAux, h10, digitChar_isDigit]
      intro acc
      simp [digitStep, digitVal_digitChar h10]
      ring
    · have hdiv : n / 10 < fuel := by
        have := Nat.div_lt_self (show 0 < n by omega) (show 1 < 10 by omega)
        omega
      obtain ⟨ihd, ihne, ihval⟩ := ih (n / 10) hdiv
      have hmod : n % 10 < 10 := Nat.mod_lt _ (by omega)
      refine ⟨?_, ?_, ?_⟩
      · intro c hc
        simp only [natReprAux, if_neg h10, List.mem_append, List.mem_singleton] at hc
        rcases hc with hc | hc
        · exact ihd c hc
        · subst hc; exact digitChar_isDigit hmod
      · simp only [natReprAux, if_neg h10]
        intro habs
        exact absurd (List.append_eq_nil.mp habs).1 ihne
      · intro acc
        simp only [natReprAux, if_neg h10, List.foldl_append, List.length_append,
          List.foldl_cons, List.foldl_nil, List.length_singleton]
        rw [ihval acc]
        simp only [digitStep, digitVal_digitChar hmod]
        have hK : (10 : Nat) * (acc * 10 ^ (natReprAux fuel (n / 10)).length + n / 10) + n % 10 =
            acc * (10 ^ (natReprAux fuel (n / 10)).length * 10) + (10 * (n / 10) + n % 10) := by
          ring
        rw [hK, Nat.div_add_mod, pow_succ]

theorem natReprChars_digits {n : Nat} : ∀ c ∈ natReprChars n, isDigitChar c = true :=
  (natReprAux_spec (n + 1) n (by omega)).1

theorem natReprChars_ne_nil {n : Nat} : natReprChars n ≠ [] :=
  (natReprAux_spec (n + 1) n (by omega)).2.1

theorem parseDigitsRest_all_digits :
    ∀ (l : List Char), (∀ c ∈ l, isDigitChar c = true) →
      ∀ acc, parseDigitsRest acc l = some (l.foldl digitStep acc) := by
  intro l
  induction l with
  | nil => intro _ acc; rfl
  | cons c cs ih =>
    intro h acc
    have hc : isDigitChar c = true := h c (by simp)
    have hrec := ih (fun x hx => h x (by simp [hx])) (10 * acc + digitVal c)
    rw [parseDigitsRest.eq_def]
    simpa [hc, digitStep] using hrec

theorem parseUnsignedDigits_natReprChars (n : Nat) :
    parseUnsignedDigits (natReprChars n) = some n := by
  obtain ⟨hdig, hne, hval⟩ := natReprAux_spec (n + 1) n (by omega)
  rcases hl : natReprChars n with _ | ⟨c, cs⟩
  · exact absurd hl natReprChars_ne_nil
  · have hl' : natReprAux (n + 1) n = c :: cs := hl
    have hc : isDigitChar c = true := by
      apply hdig; rw [hl']; simp
    have hcs : ∀ x ∈ cs, isDigitChar x = true := by
      intro x hx; apply hdig; rw [hl']; simp [hx]
    have hv' : List.foldl digitStep (digitVal c) cs = n := by
      have hv := hval 0
      rw [hl'] at hv
      simpa [digitStep] using hv
    rw [parseUnsignedDigits.eq_def]
    simp only [hc, if_true]
    rw [parseDigitsRest_all_digits cs hcs, hv']

theorem stripWs_eq_self {l : List Char} (h : ∀ c ∈ l, isPyWs c = false) :
    stripWs l = l := by
  have hdw : ∀ (m : List Char), (∀ c ∈ m, isPyWs c = false) → m.dropWhile isPyWs = m := by
    intro m hm
    cases m with
    | nil => rfl
    | cons c cs =>
      rw [List.dropWhile_cons, hm c (by simp)]
      simp
  unfold stripWs
  rw [hdw l h, hdw l.reverse (fun c hc => h c (List.mem_reverse.mp hc)), List.reverse_reverse]

theorem pyIntRepr_not_ws {i : Int} : ∀ c ∈ pyIntRepr i, isPyWs c = false := by
  cases i with
  | ofNat n => exact fun c hc => isDigitChar_not_ws (natReprChars_digits c hc)
  | negSucc m =>
    intro c hc
    simp only [pyIntRepr, List.mem_cons] at hc
    rcases hc with rfl | hc
    · decide
    · exact isDigitChar_not_ws (natReprChars_digits c hc)

theorem pyIntRepr_no_comma {i : Int} : ',' ∉ pyIntRepr i := by
  intro hc
  cases i with
  | ofNat n => exact isDigitChar_ne_comma (natReprChars_digits ',' hc) rfl
  | negSucc m =>
    simp only [pyIntRepr, List.mem_cons] at hc
    rcases hc with hc | hc
    · exact absurd hc.symm (by decide)
    · exact isDigitChar_ne_comma (natReprChars_digits ',' hc) rfl

/-- Parsing inverts Python's decimal formatting: the re-stringified timestamp
round-trips through `int(...)`. -/
theorem pyIntChars_pyIntRepr (i : Int) : pyIntChars (pyIntRepr i) = some i := by
  unfold pyIntChars
  rw [stripWs_eq_self pyIntRepr_not_ws]
  cases i with
  | ofNat n =>
    rcases hl : natReprChars n with _ | ⟨c, cs⟩
    · exact absurd hl natReprChars_ne_nil
    · have hdig : ∀ x ∈ natReprChars n, isDigitChar x = true := natReprChars_digits
      have hc : isDigitChar c = true := hdig c (by rw [hl]; simp)
      have h1 : c ≠ '+' := isDigitChar_ne_plus hc
      have h2 : c ≠ '-' := isDigitChar_ne_minus hc
      show pyIntAfterStrip (natReprChars n) = some (Int.ofNat n)
      rw [hl]
      simp only [pyIntAfterStrip, if_neg h1, if_neg h2]
      rw [← hl, parseUnsignedDigits_natReprChars]
      rfl
  | negSucc m =>
    show pyIntAfterStrip ('-' :: natReprChars (m + 1)) = some (Int.negSucc m)
    simp only [pyIntAfterStrip, if_neg (show ('-' : Char) ≠ '+' by decide), if_pos rfl]
    rw [parseUnsignedDigits_natReprChars]
    rfl

/-! ## `pySplit` lemmas -/

theorem pySplit_ne_nil (l : List Char) : pySplit l ≠ [] := by
  induction l with
  | nil => simp [pySplit]
  | cons c cs ih =>
    rw [pySplit.eq_def]
    by_cases hc : c = ','
    · simp [hc]
    · simp only [hc, if_false]
      rcases hsp : pySplit cs with _ | ⟨p, ps⟩
      · simp
      · simp

theorem pySplit_cons_comma (cs : List Char) : pySplit (',' :: cs) = [] :: pySplit cs := by
  rw [pySplit.eq_def]
  simp

theorem pySplit_cons_ne {c : Char} (hc : ¬ c = ',') {cs : List Char}
    {p : List Char} {ps : List (List Char)} (hsp : pySplit cs = p :: ps) :
    pySplit (c :: cs) = (c :: p) :: ps := by
  rw [pySplit.eq_def]
  simp only [hc, if_false, hsp]

theorem pySplit_append (a b : List Char) :
    pySplit (a ++ ',' :: b) = pySplit a ++ pySplit b := by
  induction a with
  | nil =>
    rw [List.nil_append, pySplit_cons_comma]
    rfl
  | cons c cs ih =>
    by_cases hc : c = ','
    · subst hc
      rw [List.cons_append, pySplit_cons_comma, pySplit_cons_comma, ih]
      rfl
    · rcases hsp : pySplit cs with _ | ⟨p, ps⟩
      · exact absurd hsp (pySplit_ne_nil cs)
      · have hsp' : pySplit (cs ++ ',' :: b) = p :: (ps ++ pySplit b) := by
          rw [ih, hsp]
          rfl
        rw [List.cons_append, pySplit_cons_ne hc hsp', pySplit_cons_ne hc hsp]
        simp

theorem pySplit_no_comma {l : List Char} (h : ',' ∉ l) : pySplit l = [l] := by
  induction l with
  | nil => rfl
  | cons c cs ih =>
    have hc : ¬ c = ',' := fun heq => h (by simp [heq])
    exact pySplit_cons_ne hc (ih (fun hmem => h (by simp [hmem])))

theorem pySplit_singleton {l x : List Char} (h : pySplit l = [x]) : x = l := by
  induction l generalizing x with
  | nil =>
    have h' : ([[]] : List (List Char)) = [x] := h
    simp only [List.cons.injEq] at h'
    exact h'.1.symm
  | cons c cs ih =>
    by_cases hc : c = ','
    · subst hc
      rw [pySplit_cons_comma] at h
      simp only [List.cons.injEq] at h
      exact absurd h.2 (pySplit_ne_nil cs)
    · rcases hsp : pySplit cs with _ | ⟨p, ps⟩
      · exact absurd hsp (pySplit_ne_nil cs)
      · rw [pySplit_cons_ne hc hsp] at h
        simp only [List.cons.injEq] at h
        obtain ⟨hx, hps⟩ := h
        rw [← hx, ih (x := p) (by rw [hsp, hps])]

/-! ## Digest shape lemmas -/

theorem wordToBytes_lt (w : Nat) : ∀ x ∈ wordToBytes w, x < 256 := by
  intro x hx
  simp only [wordToBytes, List.mem_cons, List.not_mem_nil, or_false] at hx
  rcases hx with rfl | rfl | rfl | rfl <;> exact Nat.mod_lt _ (by omega)

theorem sha256_bytes_lt (msg : List Nat) : ∀ x ∈ sha256 msg, x < 256 := by
  intro x hx
  rw [sha256.eq_def] at hx
  rcases sha256Blocks initSt (sha256Pad msg) with ⟨a, b, c, d, e, f, g, h⟩
  simp only [List.mem_append] at hx
  rcases hx with ((((((hx | hx) | hx) | hx) | hx) | hx) | hx) | hx <;>
    exact wordToBytes_lt _ _ hx

theorem sha256_ne_nil (msg : List Nat) : sha256 msg ≠ [] := by
  rw [sha256.eq_def]
  rcases sha256Blocks initSt (sha256Pad msg) with ⟨a, b, c, d, e, f, g, h⟩
  simp [wordToBytes]

theorem hexChar_ne_comma {n : Nat} (h : n < 16) : hexChar n ≠ ',' := by
  interval_cases n <;> decide

theorem bytesToHexChars_no_comma {bs : List Nat} (h : ∀ b ∈ bs, b < 256) :
    ',' ∉ bytesToHexChars bs := by
  intro hmem
  simp only [bytesToHexChars, List.mem_flatten, List.mem_map] at hmem
  obtain ⟨l, ⟨b, hb, rfl⟩, hcl⟩ := hmem
  simp only [byteToHex, List.mem_cons, List.not_mem_nil, or_false] at hcl
  have hb' := h b hb
  rcases hcl with hcl | hcl
  · exact hexChar_ne_comma (by omega : b / 16 < 16) hcl.symm
  · exact hexChar_ne_comma (Nat.mod_lt _ (by omega) : b % 16 < 16) hcl.symm

theorem bytesToHexChars_ne_nil {bs : List Nat} (h : bs ≠ []) :
    bytesToHexChars bs ≠ [] := by
  rcases bs with _ | ⟨b, bs'⟩
  · exact absurd rfl h
  · simp [bytesToHexChars, byteToHex]

theorem calculate_signature_ne_nil (v : WebhookVerifier) (ts : Int) (p : String) :
    v.calculate_signature ts p ≠ [] := by
  apply bytesToHexChars_ne_nil
  unfold hmacSha256
  apply sha256_ne_nil

theorem calculate_signature_no_comma (v : WebhookVerifier) (ts : Int) (p : String) :
    ',' ∉ v.calculate_signature ts p := by
  apply bytesToHexChars_no_comma
  unfold hmacSha256
  exact sha256_bytes_lt _

theorem hexChar_ascii {n : Nat} (h : n < 16) : (hexChar n).toNat < 128 := by
  interval_cases n <;> decide

theorem bytesToHexChars_ascii {bs : List Nat} (h : ∀ b ∈ bs, b < 256) :
    pyAsciiOnly (bytesToHexChars bs) = true := by
  rw [pyAsciiOnly, List.all_eq_true]
  intro c hc
  simp only [bytesToHexChars, List.mem_flatten, List.mem_map] at hc
  obtain ⟨l, ⟨b, hb, rfl⟩, hcl⟩ := hc
  simp only [byteToHex, List.mem_cons, List.not_mem_nil, or_false] at hcl
  have hb' := h b hb
  rcases hcl with rfl | rfl
  · exact decide_eq_true (hexChar_ascii (by omega : b / 16 < 16))
  · exact decide_eq_true (hexChar_ascii (Nat.mod_lt _ (by omega) : b % 16 < 16))

/-- The computed hexdigest is ASCII-only, so `hmac.compare_digest` never
fails on its first operand. -/
theorem calculate_signature_ascii (v : WebhookVerifier) (ts : Int) (p : String) :
    pyAsciiOnly (v.calculate_signature ts p) = true := by
  apply bytesToHexChars_ascii
  unfold hmacSha256
  exact sha256_bytes_lt _

/-! ## `scanParts` error analysis -/

theorem scanParts_error {parts : List (List Char)}
    {st : Option Int × Option (List Char)} {e : PyError}
    (h : scanParts st parts = .error e) :
    e = .valueError ∧
      ∃ part ∈ parts, List.isPrefixOf ['t', '='] part ∧ pyIntChars (part.drop 2) = none := by
  induction parts generalizing st with
  | nil => simp [scanParts] at h
  | cons part rest ih =>
    rw [scanParts.eq_def] at h
    by_cases ht : List.isPrefixOf ['t', '='] part
    · simp only [ht, if_true] at h
      rcases hp : pyIntChars (part.drop 2) with _ | n
      · rw [hp] at h
        simp only [Except.error.injEq] at h
        exact ⟨h.symm, part, by simp, ht, hp⟩
      · rw [hp] at h
        obtain ⟨he, part', hmem, hrest⟩ := ih h
        exact ⟨he, part', by simp [hmem], hrest⟩
    · simp only [ht, if_false] at h
      by_cases hs : List.isPrefixOf ['s', '0', '='] part
      · simp only [hs, if_true] at h
        obtain ⟨he, part', hmem, hrest⟩ := ih h
        exact ⟨he, part', by simp [hmem], hrest⟩
      · simp only [hs, if_false] at h
        obtain ⟨he, part', hmem, hrest⟩ := ih h
        exact ⟨he, part', by simp [hmem], hrest⟩

/-! ## Evaluation lemmas for `verify_signature` -/

/-- Once the header has split into two parts and the scan has produced a
timestamp and a signature, `verify_signature` is the remaining chain of
checks. -/
theorem verify_signature_eval (v : WebhookVerifier) (now : Int)
    (hdr payload : String) (m : Int) (ts : Int) (sig : List Char)
    (hlen : (pySplit hdr.data).length = 2)
    (hscan : scanParts (none, none) (pySplit hdr.data) = .ok (some ts, some sig)) :
    v.verify_signature now hdr payload m =
      (if ts = 0 ∨ sig = [] then
        .error (.webhookVerification "Missing timestamp or signature")
      else if m * 1000 < pyAbs (now - ts) then
        .error (.webhookVerification "Signature timestamp too old")
      else
        match compare_digest (v.calculate_signature ts payload) sig with
        | .error e => .error e
        | .ok cmp =>
          if cmp then .ok true
          else .error (.webhookVerification "Signature mismatch")) := by
  unfold WebhookVerifier.verify_signature
  simp only [hlen, hscan, ne_eq, not_true_eq_false, if_false]

/-- A canonically constructed header `t=<ts>,s0=<sig>` (comma-free signature
text) splits and scans as expected, so `verify_signature` on it is the chain
of checks on `ts` and `sig`. -/
theorem verify_constructed (v : WebhookVerifier) (now ts m : Int)
    (payload : String) (sig : List Char) (hnc : ',' ∉ sig) :
    v.verify_signature now
      (String.mk ('t' :: '=' :: (pyIntRepr ts ++ ',' :: 's' :: '0' :: '=' :: sig)))
      payload m =
      (if ts = 0 ∨ sig = [] then
        .error (.webhookVerification "Missing timestamp or signature")
      else if m * 1000 < pyAbs (now - ts) then
        .error (.webhookVerification "Signature timestamp too old")
      else
        match compare_digest (v.calculate_signature ts payload) sig with
        | .error e => .error e
        | .ok cmp =>
          if cmp then .ok true
          else .error (.webhookVerification "Signature mismatch")) := by
  have hdata : (String.mk ('t' :: '=' :: (pyIntRepr ts ++ ',' :: 's' :: '0' :: '=' :: sig))).data
      = ('t' :: '=' :: pyIntRepr ts) ++ ',' :: ('s' :: '0' :: '=' :: sig) := by
    simp
  have hnc1 : ',' ∉ 't' :: '=' :: pyIntRepr ts := by
    intro hmem
    simp only [List.mem_cons] at hmem
    rcases hmem with h | h | h
    · exact absurd h.symm (by decide)
    · exact absurd h.symm (by decide)
    · exact pyIntRepr_no_comma h
  have hnc2 : ',' ∉ 's' :: '0' :: '=' :: sig := by
    intro hmem
    simp only [List.mem_cons] at hmem
    rcases hmem with h | h | h | h
    · exact absurd h.symm (by decide)
    · exact absurd h.symm (by decide)
    · exact absurd h.symm (by decide)
    · exact hnc h
  have hsplit : pySplit (('t' :: '=' :: pyIntRepr ts) ++ ',' :: ('s' :: '0' :: '=' :: sig))
      = [('t' :: '=' :: pyIntRepr ts), ('s' :: '0' :: '=' :: sig)] := by
    rw [pySplit_append, pySplit_no_comma hnc1, pySplit_no_comma hnc2]
    rfl
  have hscan : scanParts (none, none)
      [('t' :: '=' :: pyIntRepr ts), ('s' :: '0' :: '=' :: sig)] = .ok (some ts, some sig) := by
    simp [scanParts, List.isPrefixOf, pyIntChars_pyIntRepr]
  apply verify_signature_eval
  · rw [hdata, hsplit]
    rfl
  · rw [hdata, hsplit]
    exact hscan

/-! ## Claim theorems -/

set_option maxRecDepth 100000 in
/-- C1 counterexample: the timestamp `0` is an integer timestamp within the
allowed window of `now = 0` (`|0 - 0| ≤ 300 * 1000`), yet the header
`t=0,s0=<correct sig>` — with the correctly computed signature — is
rejected with "Missing timestamp or signature" instead of returning `True`,
because `if not timestamp` (webhook.py line 54) treats `0` as falsy. -/
theorem verify_signature_zero_ts_rejected :
    WebhookVerifier.mk? "6168" = .ok ⟨[97, 104]⟩ ∧
    pyAbs ((0 : Int) - 0) ≤ 300 * 1000 ∧
    (⟨[97, 104]⟩ : WebhookVerifier).verify_signature 0
      (String.mk ('t' :: '=' :: (pyIntRepr 0 ++ ',' :: 's' :: '0' :: '=' ::
        (⟨[97, 104]⟩ : WebhookVerifier).calculate_signature 0 "p")))
      "p" 300 = .error (.webhookVerification "Missing timestamp or signature") :=
  ⟨by decide, by decide, by decide⟩

/-- C1 (amended): for every hex-decodable key, every *nonzero* integer
timestamp within the allowed window of a fixed `now`
(`|now - timestamp| ≤ maxAgeSeconds * 1000`), and every payload string,
`verify_signature` on the header `t=<timestamp>,s0=<sig>` returns `True`
when `<sig>` is the correctly computed signature: the lowercase hex
HMAC-SHA256 of the re-stringified decimal timestamp concatenated with the
payload.  (The timestamp `0` is excluded: the truthiness check rejects it,
per the counterexample and claim C7.) -/
theorem verify_signature_correct_succeeds
    (key : String) (v : WebhookVerifier) (_hkey : WebhookVerifier.mk? key = .ok v)
    (ts now m : Int) (payload : String)
    (hts : ts ≠ 0) (hwin : pyAbs (now - ts) ≤ m * 1000) :
    v.verify_signature now
      (String.mk ('t' :: '=' :: (pyIntRepr ts ++ ',' :: 's' :: '0' :: '=' ::
        v.calculate_signature ts payload)))
      payload m = .ok true := by
  rw [verify_constructed v now ts m payload _ (calculate_signature_no_comma v ts payload)]
  rw [if_neg (not_or.mpr ⟨hts, calculate_signature_ne_nil v ts payload⟩)]
  rw [if_neg (by omega : ¬ m * 1000 < pyAbs (now - ts))]
  have hcd : compare_digest (v.calculate_signature ts payload)
      (v.calculate_signature ts payload) = .ok true := by
    unfold compare_digest
    rw [if_pos ⟨calculate_signature_ascii v ts payload, calculate_signature_ascii v ts payload⟩]
    simp
  rw [hcd]
  rfl

set_option maxRecDepth 100000 in
/-- Witness for C1: the spec's concrete scenario — key `"6168"` (bytes
`ah`), timestamp `1700000000000`, a fixed payload string, `now`
equal to the timestamp — verifies successfully. -/
theorem verify_signature_correct_succeeds_witness :
    WebhookVerifier.mk? "6168" = .ok ⟨[97, 104]⟩ ∧
    (1700000000000 : Int) ≠ 0 ∧
    pyAbs ((1700000000000 : Int) - 1700000000000) ≤ 300 * 1000 ∧
    (⟨[97, 104]⟩ : WebhookVerifier).verify_signature 1700000000000
      (String.mk ('t' :: '=' :: (pyIntRepr 1700000000000 ++ ',' :: 's' :: '0' :: '=' ::
        (⟨[97, 104]⟩ : WebhookVerifier).calculate_signature 1700000000000 "transactionId-1")))
      "transactionId-1" 300 = .ok true :=
  ⟨by decide, by decide, by decide,
    verify_signature_correct_succeeds "6168" ⟨[97, 104]⟩ (by decide)
      1700000000000 1700000000000 300 "transactionId-1" (by decide) (by decide)⟩

set_option maxRecDepth 100000 in
/-- C2 counterexample: a well-formed in-window header whose received
signature is the single non-ASCII character `é` — a hex character of the
correct signature "replaced by a different character", within the claim's
scope — makes `hmac.compare_digest` raise `TypeError` ("comparing strings
with non-ASCII characters is not supported"), not the "Signature mismatch"
verification error. -/
theorem verify_signature_nonascii_typeError :
    (⟨[97, 104]⟩ : WebhookVerifier).verify_signature 1700000000000
      (String.mk ('t' :: '=' :: (pyIntRepr 1700000000000 ++
        ',' :: 's' :: '0' :: '=' :: ['é'])))
      "p" 300 = .error .typeError ∧
    (PyError.typeError ≠ PyError.webhookVerification "Signature mismatch") :=
  ⟨by decide, by decide⟩

/-- C2 (amended): on a well-formed header `t=<timestamp>,s0=<sig>` (nonzero
timestamp within the window, nonempty comma-free signature text), any
received signature consisting of ASCII characters — as hex text does — that
differs in any way from the expected one — in particular a single flipped
hex character or a case difference, the comparison being case-sensitive —
is rejected with the "Signature mismatch" reason.  (A non-ASCII received
signature instead raises `TypeError` from `hmac.compare_digest`, per the
counterexample.) -/
theorem verify_signature_mismatch_rejected (v : WebhookVerifier)
    (ts now m : Int) (payload : String) (sig : List Char)
    (hts : ts ≠ 0) (hwin : pyAbs (now - ts) ≤ m * 1000)
    (hne : sig ≠ []) (hnc : ',' ∉ sig) (hascii : pyAsciiOnly sig = true)
    (hdiff : sig ≠ v.calculate_signature ts payload) :
    v.verify_signature now
      (String.mk ('t' :: '=' :: (pyIntRepr ts ++ ',' :: 's' :: '0' :: '=' :: sig)))
      payload m = .error (.webhookVerification "Signature mismatch") := by
  rw [verify_constructed v now ts m payload sig hnc]
  rw [if_neg (not_or.mpr ⟨hts, hne⟩)]
  rw [if_neg (by omega : ¬ m * 1000 < pyAbs (now - ts))]
  have hcd : compare_digest (v.calculate_signature ts payload) sig = .ok false := by
    unfold compare_digest
    rw [if_pos ⟨calculate_signature_ascii v ts payload, hascii⟩]
    rw [decide_eq_false (fun heq => hdiff heq.symm)]
  rw [hcd]
  rfl

set_option maxRecDepth 100000 in
/-- Witness for C2: an in-window header whose signature text `x` is not the
expected digest is rejected with "Signature mismatch". -/
theorem verify_signature_mismatch_rejected_witness :
    (1700000000000 : Int) ≠ 0 ∧
    pyAbs ((1700000000000 : Int) - 1700000000000) ≤ 300 * 1000 ∧
    (['x'] : List Char) ≠ [] ∧
    (',' ∉ (['x'] : List Char)) ∧
    pyAsciiOnly ['x'] = true ∧
    (['x'] : List Char) ≠ (⟨[97, 104]⟩ : WebhookVerifier).calculate_signature 1700000000000 "" ∧
    (⟨[97, 104]⟩ : WebhookVerifier).verify_signature 1700000000000
      (String.mk ('t' :: '=' :: (pyIntRepr 1700000000000 ++ ',' :: 's' :: '0' :: '=' :: ['x'])))
      "" 300 = .error (.webhookVerification "Signature mismatch") :=
  ⟨by decide, by decide, by decide, by decide, by decide, by decide,
    verify_signature_mismatch_rejected ⟨[97, 104]⟩ 1700000000000 1700000000000 300 "" ['x']
      (by decide) (by decide) (by decide) (by decide) (by decide) (by decide)⟩

/-- C3: for every header whose parse yields a (truthy) timestamp and
signature, if `|now - timestamp| > maxAgeSeconds * 1000` — past or future,
the check is on the absolute difference — `verify_signature` fails with the
"Signature timestamp too old" reason, regardless of the signature's
correctness. -/
theorem verify_signature_window_rejected (v : WebhookVerifier) (now ts m : Int)
    (hdr payload : String) (sig : List Char)
    (hlen : (pySplit hdr.data).length = 2)
    (hscan : scanParts (none, none) (pySplit hdr.data) = .ok (some ts, some sig))
    (hts : ts ≠ 0) (hsig : sig ≠ [])
    (hwin : m * 1000 < pyAbs (now - ts)) :
    v.verify_signature now hdr payload m =
      .error (.webhookVerification "Signature timestamp too old") := by
  rw [verify_signature_eval v now hdr payload m ts sig hlen hscan]
  rw [if_neg (not_or.mpr ⟨hts, hsig⟩), if_pos hwin]

/-- Witness for C3: a header with timestamp `1` (far outside the window of a
large `now`, with a correct-looking signature irrelevant) is rejected with
the window error. -/
theorem verify_signature_window_rejected_witness :
    (pySplit ("t=1,s0=a" : String).data).length = 2 ∧
    scanParts (none, none) (pySplit ("t=1,s0=a" : String).data) = .ok (some 1, some ['a']) ∧
    (1 : Int) ≠ 0 ∧ (['a'] : List Char) ≠ [] ∧
    (300 : Int) * 1000 < pyAbs ((1700000000000 : Int) - 1) ∧
    (⟨[97, 104]⟩ : WebhookVerifier).verify_signature 1700000000000 "t=1,s0=a" "x" 300 =
      .error (.webhookVerification "Signature timestamp too old") :=
  ⟨by decide, by decide, by decide, by decide, by decide,
    verify_signature_window_rejected ⟨[97, 104]⟩ 1700000000000 1 300 "t=1,s0=a" "x" ['a']
      (by decide) (by decide) (by decide) (by decide) (by decide)⟩

/-- C5: every header that does not split on `,` into exactly two parts is
rejected with the "Invalid signature header format" reason, before any
other check. -/
theorem verify_signature_malformed_header (v : WebhookVerifier) (now : Int)
    (hdr payload : String) (m : Int)
    (hlen : (pySplit hdr.data).length ≠ 2) :
    v.verify_signature now hdr payload m =
      .error (.webhookVerification "Invalid signature header format") := by
  unfold WebhookVerifier.verify_signature
  simp [hlen]

/-- Witness for C5: the spec's concrete scenario `a=1,b=2,c=3` (three
segments) is rejected as malformed. -/
theorem verify_signature_malformed_header_witness :
    (pySplit ("a=1,b=2,c=3" : String).data).length ≠ 2 ∧
    (⟨[97, 104]⟩ : WebhookVerifier).verify_signature 0 "a=1,b=2,c=3" "p" 300 =
      .error (.webhookVerification "Invalid signature header format") :=
  ⟨by decide,
    verify_signature_malformed_header ⟨[97, 104]⟩ 0 "a=1,b=2,c=3" "p" 300 (by decide)⟩

/-- A header that does not split into exactly two parts makes
`verify_signature` report the invalid-format error. -/
theorem verify_signature_eval_invalid (v : WebhookVerifier) (now : Int)
    (hdr payload : String) (m : Int)
    (hlen : (pySplit hdr.data).length ≠ 2) :
    v.verify_signature now hdr payload m =
      .error (.webhookVerification "Invalid signature header format") := by
  unfold WebhookVerifier.verify_signature
  simp [hlen]

/-- A scan failure (Python `ValueError` from `int(...)`) propagates out of
`verify_signature` unchanged. -/
theorem verify_signature_eval_scanFail (v : WebhookVerifier) (now : Int)
    (hdr payload : String) (m : Int) (e : PyError)
    (hlen : (pySplit hdr.data).length = 2)
    (hscan : scanParts (none, none) (pySplit hdr.data) = .error e) :
    v.verify_signature now hdr payload m = .error e := by
  unfold WebhookVerifier.verify_signature
  simp [hlen, hscan]

/-- When the scan leaves either variable at `None`, the truthiness check
reports the missing-field error. -/
theorem verify_signature_eval_missing (v : WebhookVerifier) (now : Int)
    (hdr payload : String) (m : Int)
    (t? : Option Int) (r? : Option (List Char))
    (hlen : (pySplit hdr.data).length = 2)
    (hscan : scanParts (none, none) (pySplit hdr.data) = .ok (t?, r?))
    (hmiss : t? = none ∨ r? = none) :
    v.verify_signature now hdr payload m =
      .error (.webhookVerification "Missing timestamp or signature") := by
  unfold WebhookVerifier.verify_signature
  rcases t? with _ | ts
  · rcases r? with _ | sig <;> simp [hlen, hscan]
  · rcases r? with _ | sig
    · simp [hlen, hscan]
    · rcases hmiss with h | h <;> simp at h

/-- If no part carries the `t=` tag, the scan ends with the timestamp
variable still `None`. -/
theorem scanParts_no_t {parts : List (List Char)}
    (h : ∀ part ∈ parts, ¬ List.isPrefixOf ['t', '='] part = true) :
    ∀ st : Option Int × Option (List Char), st.1 = none →
      ∃ r, scanParts st parts = .ok (none, r) := by
  induction parts with
  | nil =>
    intro st hst
    rcases st with ⟨t?, r?⟩
    simp only at hst
    subst hst
    exact ⟨r?, by rw [scanParts.eq_def]⟩
  | cons part rest ih =>
    intro st hst
    have ht := h part (by simp)
    rw [scanParts.eq_def]
    simp only [Bool.not_eq_true] at ht
    by_cases hs : List.isPrefixOf ['s', '0', '='] part = true
    · simp only [ht, Bool.false_eq_true, if_false, hs, if_true]
      exact ih (fun p hp => h p (by simp [hp])) (st.1, some (part.drop 3)) hst
    · simp only [ht, Bool.false_eq_true, if_false, hs]
      exact ih (fun p hp => h p (by simp [hp])) st hst

/-- If no part carries the `s0=` tag (and every `t=` part parses), the scan
ends with the signature variable still `None`. -/
theorem scanParts_no_s {parts : List (List Char)}
    (hparse : ∀ part ∈ parts, List.isPrefixOf ['t', '='] part = true →
      (pyIntChars (part.drop 2)).isSome)
    (hs : ∀ part ∈ parts, ¬ List.isPrefixOf ['s', '0', '='] part = true) :
    ∀ st : Option Int × Option (List Char), st.2 = none →
      ∃ t, scanParts st parts = .ok (t, none) := by
  induction parts with
  | nil =>
    intro st hst
    rcases st with ⟨t?, r?⟩
    simp only at hst
    subst hst
    exact ⟨t?, by rw [scanParts.eq_def]⟩
  | cons part rest ih =>
    intro st hst
    rw [scanParts.eq_def]
    by_cases ht : List.isPrefixOf ['t', '='] part = true
    · obtain ⟨n, hn⟩ := Option.isSome_iff_exists.mp (hparse part (by simp) ht)
      simp only [ht, if_true, hn]
      exact ih (fun p hp hpt => hparse p (by simp [hp]) hpt)
        (fun p hp => hs p (by simp [hp])) (some n, st.2) hst
    · have hsp := hs part (by simp)
      simp only [Bool.not_eq_true] at ht hsp
      simp only [ht, Bool.false_eq_true, if_false, hsp]
      exact ih (fun p hp hpt => hparse p (by simp [hp]) hpt)
        (fun p hp => hs p (by simp [hp])) st hst

/-- C4 counterexample: the claim says no exception outside the
`WebhookVerificationError` category escapes, even for a `t=` remainder that
is not a valid integer; but on header `t=x,s0=abc` the code's
`int(part[2:])` raises a bare `ValueError`, which is not of that category. -/
theorem verify_signature_valueError_escapes :
    (⟨[97, 104]⟩ : WebhookVerifier).verify_signature 0 "t=x,s0=abc" "p" 300 =
      .error .valueError ∧
    PyError.isWebhookVerificationError .valueError = false :=
  ⟨by decide, by decide⟩

/-- C4 (amended): `verify_signature` never returns `False`: every call
returns `True`, or raises a `WebhookVerificationError`, or raises the
`ValueError` coming from `int(...)` on a `t=` part whose remainder is not a
valid integer, or raises the `TypeError` coming from `hmac.compare_digest`
when the received signature text contains a non-ASCII character — the two
failure modes outside the verification-error category. -/
theorem verify_signature_outcomes (v : WebhookVerifier) (now : Int)
    (hdr payload : String) (m : Int) :
    v.verify_signature now hdr payload m = .ok true ∨
    (∃ msg, v.verify_signature now hdr payload m = .error (.webhookVerification msg)) ∨
    (v.verify_signature now hdr payload m = .error .valueError ∧
      ∃ part ∈ pySplit hdr.data, List.isPrefixOf ['t', '='] part ∧
        pyIntChars (part.drop 2) = none) ∨
    (v.verify_signature now hdr payload m = .error .typeError ∧
      ∃ ts sig, scanParts (none, none) (pySplit hdr.data) = .ok (some ts, some sig) ∧
        pyAsciiOnly sig = false) := by
  by_cases hlen : (pySplit hdr.data).length = 2
  · cases hscan : scanParts (none, none) (pySplit hdr.data) with
    | error e =>
      obtain ⟨he, hex⟩ := scanParts_error hscan
      subst he
      exact Or.inr (Or.inr (Or.inl
        ⟨verify_signature_eval_scanFail v now hdr payload m _ hlen hscan, hex⟩))
    | ok st =>
      rcases st with ⟨t?, r?⟩
      rcases t? with _ | ts
      · exact Or.inr (Or.inl ⟨_,
          verify_signature_eval_missing v now hdr payload m _ _ hlen hscan (Or.inl rfl)⟩)
      · rcases r? with _ | sig
        · exact Or.inr (Or.inl ⟨_,
            verify_signature_eval_missing v now hdr payload m _ _ hlen hscan (Or.inr rfl)⟩)
        · rw [verify_signature_eval v now hdr payload m ts sig hlen hscan]
          by_cases h0 : ts = 0 ∨ sig = []
          · rw [if_pos h0]
            exact Or.inr (Or.inl ⟨_, rfl⟩)
          · rw [if_neg h0]
            by_cases hw : m * 1000 < pyAbs (now - ts)
            · rw [if_pos hw]
              exact Or.inr (Or.inl ⟨_, rfl⟩)
            · rw [if_neg hw]
              by_cases hascii : pyAsciiOnly sig = true
              · have hcd : compare_digest (v.calculate_signature ts payload) sig
                    = .ok (decide (v.calculate_signature ts payload = sig)) := by
                  unfold compare_digest
                  rw [if_pos ⟨calculate_signature_ascii v ts payload, hascii⟩]
                rw [hcd]
                by_cases hcmp : v.calculate_signature ts payload = sig
                · rw [decide_eq_true hcmp]
                  exact Or.inl rfl
                · rw [decide_eq_false hcmp]
                  exact Or.inr (Or.inl ⟨_, rfl⟩)
              · have hcd : compare_digest (v.calculate_signature ts payload) sig
                    = .error .typeError := by
                  unfold compare_digest
                  rw [if_neg (fun hand => hascii hand.2)]
                rw [hcd]
                rw [Bool.not_eq_true] at hascii
                refine Or.inr (Or.inr (Or.inr ⟨?_, ts, sig, rfl, hascii⟩))
                rfl
  · exact Or.inr (Or.inl ⟨_, verify_signature_eval_invalid v now hdr payload m hlen⟩)

/-- C6 counterexample: the claim says a two-segment header with no `s0=`
segment is rejected with the missing-field reason; but on `t=x,abc` the
code's `int("x")` raises a `ValueError` first. -/
theorem verify_signature_missing_s0_valueError :
    (⟨[97, 104]⟩ : WebhookVerifier).verify_signature 0 "t=x,abc" "p" 300 =
      .error .valueError ∧
    (⟨[97, 104]⟩ : WebhookVerifier).verify_signature 0 "t=x,abc" "p" 300 ≠
      .error (.webhookVerification "Missing timestamp or signature") :=
  ⟨by decide, by decide⟩

/-- C6 (amended): a two-segment header in which no segment begins with `t=`
or no segment begins with `s0=` is rejected with the missing-field reason,
provided every segment beginning with `t=` has a valid-integer remainder
(otherwise a `ValueError` escapes first). -/
theorem verify_signature_missing_field (v : WebhookVerifier) (now : Int)
    (hdr payload : String) (m : Int)
    (hlen : (pySplit hdr.data).length = 2)
    (hparse : ∀ part ∈ pySplit hdr.data, List.isPrefixOf ['t', '='] part →
      (pyIntChars (part.drop 2)).isSome)
    (habs : (∀ part ∈ pySplit hdr.data, ¬ List.isPrefixOf ['t', '='] part) ∨
            (∀ part ∈ pySplit hdr.data, ¬ List.isPrefixOf ['s', '0', '='] part)) :
    v.verify_signature now hdr payload m =
      .error (.webhookVerification "Missing timestamp or signature") := by
  rcases habs with h | h
  · obtain ⟨r, hr⟩ := scanParts_no_t h (none, none) rfl
    exact verify_signature_eval_missing v now hdr payload m _ _ hlen hr (Or.inl rfl)
  · obtain ⟨t, ht⟩ := scanParts_no_s hparse h (none, none) rfl
    exact verify_signature_eval_missing v now hdr payload m _ _ hlen ht (Or.inr rfl)

/-- Witness for C6: the header `x,y` has two segments and neither carries a
tag; it is rejected with the missing-field reason. -/
theorem verify_signature_missing_field_witness :
    (pySplit ("x,y" : String).data).length = 2 ∧
    (∀ part ∈ pySplit ("x,y" : String).data, List.isPrefixOf ['t', '='] part →
      (pyIntChars (part.drop 2)).isSome) ∧
    (∀ part ∈ pySplit ("x,y" : String).data, ¬ List.isPrefixOf ['t', '='] part) ∧
    (⟨[97, 104]⟩ : WebhookVerifier).verify_signature 0 "x,y" "p" 300 =
      .error (.webhookVerification "Missing timestamp or signature") :=
  ⟨by decide, by decide, by decide,
    verify_signature_missing_field ⟨[97, 104]⟩ 0 "x,y" "p" 300
      (by decide) (by decide) (Or.inl (by decide))⟩

/-- C7: two-segment headers carrying both tags can still be rejected with
the missing-field reason, because the presence check is a Python truthiness
test: a timestamp parsing to `0` and an empty `s0=` remainder are both
falsy. -/
theorem verify_signature_truthiness_quirk :
    (⟨[97, 104]⟩ : WebhookVerifier).verify_signature 1700000000000
      "t=0,s0=deadbeef" "{}" 300 =
      .error (.webhookVerification "Missing timestamp or signature") ∧
    (⟨[97, 104]⟩ : WebhookVerifier).verify_signature 1700000000000
      "t=1700000000000,s0=" "{}" 300 =
      .error (.webhookVerification "Missing timestamp or signature") :=
  ⟨by decide, by decide⟩

/-- C8: for every payload, maximum age, timestamp segment `T` (beginning
with `t=`) and signature segment `S` (beginning with `s0=`), the headers
`T,S` and `S,T` produce the same verification outcome: the order of the two
comma-separated segments is not significant. -/
theorem verify_signature_order_insensitive (v : WebhookVerifier) (now : Int)
    (payload : String) (m : Int) (T S : String)
    (hT : List.isPrefixOf ['t', '='] T.data)
    (hS : List.isPrefixOf ['s', '0', '='] S.data) :
    v.verify_signature now (T ++ "," ++ S) payload m =
      v.verify_signature now (S ++ "," ++ T) payload m := by
  obtain ⟨trest, hTd⟩ : ∃ r, T.data = 't' :: '=' :: r := by
    obtain ⟨r, hr⟩ := List.isPrefixOf_iff_prefix.mp hT
    exact ⟨r, hr.symm⟩
  obtain ⟨srest, hSd⟩ : ∃ r, S.data = 's' :: '0' :: '=' :: r := by
    obtain ⟨r, hr⟩ := List.isPrefixOf_iff_prefix.mp hS
    exact ⟨r, hr.symm⟩
  have hd1 : (T ++ "," ++ S).data = T.data ++ ',' :: S.data := by
    calc (T ++ "," ++ S).data = (T.data ++ [',']) ++ S.data := rfl
      _ = T.data ++ ',' :: S.data := by simp
  have hd2 : (S ++ "," ++ T).data = S.data ++ ',' :: T.data := by
    calc (S ++ "," ++ T).data = (S.data ++ [',']) ++ T.data := rfl
      _ = S.data ++ ',' :: T.data := by simp
  have hsp1 : pySplit ((T ++ "," ++ S).data) = pySplit T.data ++ pySplit S.data := by
    rw [hd1, pySplit_append]
  have hsp2 : pySplit ((S ++ "," ++ T).data) = pySplit S.data ++ pySplit T.data := by
    rw [hd2, pySplit_append]
  by_cases h2 : (pySplit T.data).length + (pySplit S.data).length = 2
  · have hTne := pySplit_ne_nil T.data
    have hSne := pySplit_ne_nil S.data
    have hT1 : (pySplit T.data).length = 1 := by
      have h1 : (pySplit T.data).length ≠ 0 := fun h0 => hTne (List.length_eq_zero.mp h0)
      have h1' : (pySplit S.data).length ≠ 0 := fun h0 => hSne (List.length_eq_zero.mp h0)
      omega
    have hS1 : (pySplit S.data).length = 1 := by omega
    obtain ⟨tp, htp⟩ := List.length_eq_one.mp hT1
    obtain ⟨sp, hsp⟩ := List.length_eq_one.mp hS1
    have htpe : pySplit T.data = [T.data] := by rw [htp, pySplit_singleton htp]
    have hspe : pySplit S.data = [S.data] := by rw [hsp, pySplit_singleton hsp]
    have hparts1 : pySplit ((T ++ "," ++ S).data) = [T.data, S.data] := by
      rw [hsp1, htpe, hspe]
      rfl
    have hparts2 : pySplit ((S ++ "," ++ T).data) = [S.data, T.data] := by
      rw [hsp2, htpe, hspe]
      rfl
    have hdropT : T.data.drop 2 = trest := by rw [hTd]; rfl
    have hdropS : S.data.drop 3 = srest := by rw [hSd]; rfl
    have htS : List.isPrefixOf ['t', '='] S.data = false := by rw [hSd]; rfl
    have hsT : List.isPrefixOf ['s', '0', '='] T.data = false := by rw [hTd]; rfl
    cases hpi : pyIntChars trest with
    | none =>
      have hscan1 : scanParts (none, none) [T.data, S.data] = .error .valueError := by
        simp [scanParts, hT, htS, hS, hsT, hdropT, hdropS, hpi]
      have hscan2 : scanParts (none, none) [S.data, T.data] = .error .valueError := by
        simp [scanParts, hT, htS, hS, hsT, hdropT, hdropS, hpi]
      rw [verify_signature_eval_scanFail v now (T ++ "," ++ S) payload m _
            (by rw [hparts1]; rfl) (by rw [hparts1]; exact hscan1),
          verify_signature_eval_scanFail v now (S ++ "," ++ T) payload m _
            (by rw [hparts2]; rfl) (by rw [hparts2]; exact hscan2)]
    | some n =>
      have hscan1 : scanParts (none, none) [T.data, S.data] = .ok (some n, some srest) := by
        simp [scanParts, hT, htS, hS, hsT, hdropT, hdropS, hpi]
      have hscan2 : scanParts (none, none) [S.data, T.data] = .ok (some n, some srest) := by
        simp [scanParts, hT, htS, hS, hsT, hdropT, hdropS, hpi]
      rw [verify_signature_eval v now (T ++ "," ++ S) payload m n srest
            (by rw [hparts1]; rfl) (by rw [hparts1]; exact hscan1),
          verify_signature_eval v now (S ++ "," ++ T) payload m n srest
            (by rw [hparts2]; rfl) (by rw [hparts2]; exact hscan2)]
  · rw [verify_signature_eval_invalid v now (T ++ "," ++ S) payload m
          (by rw [hsp1, List.length_append]; exact h2),
        verify_signature_eval_invalid v now (S ++ "," ++ T) payload m
          (by rw [hsp2, List.length_append]; omega)]

/-- Witness for C8: the segments `t=1` and `s0=ab` verify identically in
either order. -/
theorem verify_signature_order_insensitive_witness :
    List.isPrefixOf ['t', '='] ("t=1" : String).data = true ∧
    List.isPrefixOf ['s', '0', '='] ("s0=ab" : String).data = true ∧
    (⟨[97, 104]⟩ : WebhookVerifier).verify_signature 5 ("t=1" ++ "," ++ "s0=ab") "p" 300 =
      (⟨[97, 104]⟩ : WebhookVerifier).verify_signature 5 ("s0=ab" ++ "," ++ "t=1") "p" 300 :=
  ⟨by decide, by decide,
    verify_signature_order_insensitive ⟨[97, 104]⟩ 5 "p" 300 "t=1" "s0=ab"
      (by decide) (by decide)⟩

/-- C9 counterexample: constructing a verifier from the non-hex string
`zz` fails with Python's builtin `ValueError` (raised by `bytes.fromhex`),
not with the repository's `ConfigurationError` class, which the source
never raises. -/
theorem mk_nonhex_not_configError :
    WebhookVerifier.mk? "zz" = .error .valueError ∧
    PyError.isConfigError .valueError = false :=
  ⟨by decide, by decide⟩

/-- C9 (amended): constructing a verifier with a string that is not valid
hex fails eagerly at construction time — `bytes.fromhex` runs inside
`__init__` — but with a `ValueError`, not a `ConfigurationError`-class
condition; the failure is not deferred to first use. -/
theorem mk_nonhex_fails_eagerly (s : String) (h : bytesFromHex s.data = none) :
    WebhookVerifier.mk? s = .error .valueError := by
  unfold WebhookVerifier.mk?
  rw [h]

/-- Witness for C9 (amended): `zz` is not valid hex and construction fails
eagerly with the `ValueError`. -/
theorem mk_nonhex_fails_eagerly_witness :
    bytesFromHex ("zz" : String).data = none ∧
    WebhookVerifier.mk? "zz" = .error .valueError :=
  ⟨by decide, mk_nonhex_fails_eagerly "zz" (by decide)⟩

/-- C10: `verify_signature` is deterministic apart from the wall-clock
read: in the state-passing reading of the method, a call leaves the
verifier state unchanged, and a repeat call with the same header, payload,
maximum age and the same clock value — even after an unrelated intervening
call — produces the identical outcome. -/
theorem verify_signature_pure_stateless (v : WebhookVerifier)
    (now now' m m' : Int) (hdr payload hdr' payload' : String) :
    (v.verify_signatureS now hdr payload m).2 = v ∧
    (((v.verify_signatureS now hdr payload m).2.verify_signatureS
        now' hdr' payload' m').2.verify_signatureS now hdr payload m).1 =
      (v.verify_signatureS now hdr payload m).1 :=
  ⟨rfl, rfl⟩

end Datatrans
